import Mathlib

/-!
Shallow embedding of the cricket-court booking backend's core logic:
the pricing engine (`PricingService.calculateBookingPrice` and its helpers),
the booking status transitions (`updateBookingStatus`, `cancelBooking`),
the admin manual-booking workflow (`createManualBooking`) and the court CRUD
operations (`createCourt`, `deleteCourt`, `updateCourt`, `toggleCourtStatus`).

Times are modelled in minutes.  A datetime inside one price calculation is a
number of minutes `t` counted from the booking date's local midnight (so
`t / 60 % 24` is the JS `getHours()` value and `t / 1440` the number of
calendar days after the booking date).  The booking date itself is represented
by its JS weekday number `w` (0 = Sunday .. 6 = Saturday).  Money is `ℚ`,
matching the exact fractional-hour arithmetic of the source (rates times
durations that are multiples of half an hour).
-/

namespace CricketBooking

/-- `dayType` values of the source (`"weekday" | "weekend"`). -/
inductive DayType where
  | weekday
  | weekend
deriving DecidableEq, Repr

/-- `timeSlot` values of the source (`"day" | "night"`). -/
inductive TimeSlot where
  | day
  | night
deriving DecidableEq, Repr

/-- The active rate table: `PricingRule.findOne {dayType, timeSlot, isActive : true}`
returns the active `pricePerHour` for a pair, or nothing. -/
def RateTable : Type := DayType → TimeSlot → Option ℚ

/-- JS `getHours()` of an instant `t` minutes after the booking date's midnight. -/
def hourOfTime (t : Nat) : Nat := t / 60 % 24

/-- JS `getMinutes()` of an instant. -/
def minuteOfTime (t : Nat) : Nat := t % 60

/-- `PricingService.isNightTime`: night is 18:00 to 09:00 (`hour >= 18 || hour < 9`). -/
def isNightTime (hour : Nat) : Bool := 18 ≤ hour || hour < 9

/-- JS `getDay()` at instant `t`, when the booking date's weekday is `w`
(0 = Sunday .. 6 = Saturday). -/
def weekdayAt (w t : Nat) : Nat := (w + t / 1440) % 7

/-- Weekday of `PricingService.getEffectiveDate`: hours in [00:00, 04:00) are
shifted back one calendar day before classification. -/
def effectiveWeekday (w t : Nat) : Nat :=
  if hourOfTime t < 4 then (w + t / 1440 + 6) % 7 else weekdayAt w t

/-- `PricingService.isWeekend`: Friday (5) or Saturday (6). -/
def isWeekendDay (d : Nat) : Bool := d == 5 || d == 6

/-- `PricingService.getDayType`. -/
def getDayType (d : Nat) : DayType := if isWeekendDay d then .weekend else .weekday

/-- `PricingService.getTimeSlot`. -/
def getTimeSlot (hour : Nat) : TimeSlot := if isNightTime hour then .night else .day

/-- `PricingService.isSaturdayNight`: the effective date falls on Saturday and
the hour is a night hour. -/
def isSaturdayNight (w t : Nat) : Bool :=
  effectiveWeekday w t == 6 && isNightTime (hourOfTime t)

/-- The `BadRequestError`s thrown by the pricing service, told apart by their
message text. -/
inductive PriceError where
  /-- "Minimum booking duration is 1 hour" -/
  | minDuration
  /-- "Bookings must be in 30-minute increments (e.g., 1.0h, 1.5h, 2.0h)" -/
  | notHalfHour
  /-- "Pricing rule not found for {dayType} {timeSlot}" -/
  | missingRate (dt : DayType) (ts : TimeSlot)
deriving DecidableEq, Repr

/-- Return value of `PricingService.getPrice`. -/
structure PriceInfo where
  price : ℚ
  dayType : DayType
  timeSlot : TimeSlot
deriving DecidableEq, Repr

/-- `PricingService.getPrice (date, hour)`: the Saturday-night override (110)
wins; otherwise the active rate for the effective day type and the hour's time
slot is looked up, and a missing rule is an error.  `t` is the instant
(`date` carrying its time), whose hour is the `hour` argument of the source. -/
def getPrice (rt : RateTable) (w t : Nat) : Except PriceError PriceInfo :=
  if isSaturdayNight w t then
    .ok ⟨110, .weekend, .night⟩
  else
    let dt := getDayType (effectiveWeekday w t)
    let ts := getTimeSlot (hourOfTime t)
    match rt dt ts with
    | some p => .ok ⟨p, dt, ts⟩
    | none => .error (.missingRate dt ts)

/-- One entry pushed onto `breakdown` by the pricing loop.  The source stores
the formatted string `"HH:MM-HH:MM"` plus rate and classification; here the
two instants `startM`/`endM` (minutes from booking-date midnight) that the
source formats are kept, so the label is recoverable. -/
structure Segment where
  startM : Nat
  endM : Nat
  rate : ℚ
  dayType : DayType
  timeSlot : TimeSlot
deriving DecidableEq, Repr

/-- The `"HH:MM-HH:MM"` label the source formats from the segment's bounds. -/
def Segment.hourLabel (s : Segment) : String :=
  let fmt := fun (t : Nat) =>
    (String.mk (Nat.toDigits 10 (hourOfTime t))).leftpad 2 '0' ++ ":" ++
      (String.mk (Nat.toDigits 10 (minuteOfTime t))).leftpad 2 '0'
  fmt s.startM ++ "-" ++ fmt s.endM

/-- The `while (currentTime < endDateTime)` loop of `calculateBookingPrice`:
step to `currentTime + 1 hour` (JS `setHours(getHours()+1)` keeps the
minutes), clamp at the end, price the slot by the hour at its start, push a
breakdown entry and accumulate `rate * slotDuration`. -/
def priceLoop (rt : RateTable) (w fin cur : Nat) : Except PriceError (List Segment × ℚ) :=
  if h : cur < fin then
    let nextHour := cur + 60
    let slotEnd := if fin < nextHour then fin else nextHour
    match getPrice rt w cur with
    | .error e => .error e
    | .ok info =>
      match priceLoop rt w fin slotEnd with
      | .error e => .error e
      | .ok (segs, total) =>
        .ok (⟨cur, slotEnd, info.price, info.dayType, info.timeSlot⟩ :: segs,
          info.price * (((slotEnd - cur : Nat) : ℚ) / 60) + total)
  else
    .ok ([], 0)
termination_by fin - cur
decreasing_by
  simp_wf
  split <;> omega

/-- Minutes-from-midnight of a parsed `"HH:MM"` time. -/
def startMinutes (h m : Nat) : Nat := h * 60 + m

/-- The end instant after midnight rollover: `if (endDateTime <= startDateTime)
endDateTime.setDate(getDate() + 1)`. -/
def resolvedEnd (sh sm eh em : Nat) : Nat :=
  let s := startMinutes sh sm
  let e0 := startMinutes eh em
  if e0 ≤ s then e0 + 1440 else e0

/-- The booking's resolved duration in minutes. -/
def resolvedDuration (sh sm eh em : Nat) : Nat :=
  resolvedEnd sh sm eh em - startMinutes sh sm

/-- Return value of `PricingService.calculateBookingPrice`. -/
structure PriceResult where
  totalHours : ℚ
  breakdown : List Segment
  finalPrice : ℚ
deriving DecidableEq, Repr

/-- `PricingService.calculateBookingPrice (bookingDate, startTime, endTime)`
of the authoritative service version: the booking date is normalized to local
midnight (only its weekday `w` matters afterwards), `"HH:MM"` times become
instants `sh*60+sm` and `eh*60+em`, the end rolls to the next day when not
after the start, durations under 1 hour or off the 30-minute grid are errors,
and otherwise the hourly walk prices the interval. -/
def calculateBookingPrice (rt : RateTable) (w sh sm eh em : Nat) :
    Except PriceError PriceResult :=
  if ((resolvedDuration sh sm eh em : ℚ) / 60) < 1 then
    .error .minDuration
  else if resolvedDuration sh sm eh em % 60 ≠ 0 ∧ resolvedDuration sh sm eh em % 60 ≠ 30 then
    .error .notHalfHour
  else
    match priceLoop rt w (resolvedEnd sh sm eh em) (startMinutes sh sm) with
    | .error e => .error e
    | .ok (segs, total) => .ok ⟨(resolvedDuration sh sm eh em : ℚ) / 60, segs, total⟩

/-- The source mutates a `Date`-typed `bookingDate` argument: `dateObj` aliases
the caller's object and `dateObj.setHours(0, 0, 0, 0)` zeroes its time-of-day
in place before the calculation.  This wrapper makes that visible: it takes the
caller's `Date` time-of-day `dateArgTime` (minutes after midnight) alongside
the weekday `w` of its calendar day, and returns the computed price together
with the argument's time-of-day after the call (always `0`). -/
def calculateBookingPriceDateArg (rt : RateTable) (w dateArgTime sh sm eh em : Nat) :
    Except PriceError PriceResult × Nat :=
  (calculateBookingPrice rt w sh sm eh em, 0)

/-- The default rate table installed by `initializePricingRules`. -/
def sampleRates : RateTable := fun dt ts =>
  match dt, ts with
  | .weekday, .day => some 80
  | .weekday, .night => some 100
  | .weekend, .day => some 100
  | .weekend, .night => some 135

/-- A rate table whose weekend/night entry is absent. -/
def noWeekendNightRates : RateTable := fun dt ts =>
  match dt, ts with
  | .weekday, .day => some 80
  | .weekday, .night => some 100
  | .weekend, .day => some 100
  | .weekend, .night => none

/-! ## Booking status transitions (`updateBookingStatus`, `cancelBooking`) -/

/-- The `status` values of the `Booking` model. -/
inductive BookingStatus where
  | pending
  | confirmed
  | blocked
  | cancelled
  | completed
deriving DecidableEq, Repr

/-- The slice of a persisted booking document that the status workflows touch. -/
structure BookingDoc where
  status : BookingStatus
  notes : Option String
deriving DecidableEq, Repr

/-- `updateBookingStatus` (admin): rejects terminal bookings, otherwise writes
the new status and, when given, the notes. -/
def updateBookingStatus (b : BookingDoc) (status : BookingStatus) (notes : Option String) :
    Except String BookingDoc :=
  if b.status = .cancelled then
    .error "Cannot update status of cancelled booking"
  else if b.status = .completed then
    .error "Cannot update status of completed booking"
  else
    .ok { b with
      status := status
      notes := match notes with
        | some n => some n
        | none => b.notes }

/-- `cancelBooking` (soft delete): rejects already-cancelled and completed
bookings, otherwise sets the status to `cancelled` and appends a cancellation
reason to the notes when one is given. -/
def cancelBooking (b : BookingDoc) (reason : Option String) : Except String BookingDoc :=
  if b.status = .cancelled then
    .error "Booking is already cancelled"
  else if b.status = .completed then
    .error "Cannot cancel completed booking"
  else
    .ok { b with
      status := .cancelled
      notes := match reason with
        | some rsn =>
          match b.notes with
          | some old => some (old ++ "\nCancellation reason: " ++ rsn)
          | none => some ("Cancellation reason: " ++ rsn)
        | none => b.notes }

/-! ## Admin manual booking (`createManualBooking`) -/

/-- The observable side effects of the manual-booking workflow, in the order
the source performs them. -/
inductive BookingEffect where
  /-- `Customer.findOne {phone}` -/
  | customerLookup (phone : String)
  /-- `Customer.create {...}` -/
  | customerCreate (name phone : String)
  /-- `PricingService.calculateBookingPrice(...)` -/
  | pricingInvoked
  /-- `Customer.findByIdAndUpdate(id, {inc : {totalBookings : 1}})` -/
  | incrementTotalBookings (customerId : Nat)
deriving DecidableEq, Repr

/-- The reservation document `Booking.create` persists. -/
structure BookingRecord where
  customer : Option Nat
  durationHours : ℚ
  totalPrice : ℚ
  pricingBreakdown : List Segment
  discountAmount : ℚ
  finalPrice : ℚ
  paymentStatus : String
  amountPaid : ℚ
  status : BookingStatus
  notes : Option String
  createdBy : String
deriving DecidableEq, Repr

/-- The environment `createManualBooking` runs against.  `courtFound`,
`timeValid`, `available` and `durationHours` abstract the results of
`Court.findById`, `BookingService.validateBookingTime`,
`BookingService.checkAvailability` and `BookingService.calculateDuration`
(the booking-service module is outside the embedded pricing core);
`existingCustomer` is the result of `Customer.findOne {phone}` and
`newCustomerId` the id `Customer.create` would assign.  The pricing call is
the embedded `calculateBookingPrice` on the parsed booking date and times. -/
structure ManualBookingEnv where
  courtFound : Bool
  timeValid : Bool
  available : Bool
  durationHours : ℚ
  existingCustomer : Option Nat
  newCustomerId : Nat
  rateTable : RateTable
  weekday : Nat
  sh : Nat
  sm : Nat
  eh : Nat
  em : Nat

/-- The request body of the manual-booking endpoint. -/
structure ManualBookingInput where
  courtId : Option String
  bookingDate : Option String
  startTime : Option String
  endTime : Option String
  customerPhone : Option String
  customerName : Option String
  customerEmail : Option String
  notes : Option String
  isBlocked : Bool

/-- The `BadRequestError` message of a pricing failure as surfaced to the
booking controller. -/
def priceErrorMessage : PriceError → String
  | .minDuration => "Minimum booking duration is 1 hour"
  | .notHalfHour => "Bookings must be in 30-minute increments (e.g., 1.0h, 1.5h, 2.0h)"
  | .missingRate _ _ => "Pricing rule not found"

/-- `createManualBooking` (admin): validates fields, court, time and
availability, then either persists a blocked slot (no customer, no pricing,
zero price, payment status "paid") or resolves the customer, prices the
booking and increments the customer's booking count.  The effect list records
which external operations ran. -/
def createManualBooking (env : ManualBookingEnv) (inp : ManualBookingInput) :
    Except String (BookingRecord × List BookingEffect) :=
  if inp.courtId.isNone || inp.bookingDate.isNone ||
      inp.startTime.isNone || inp.endTime.isNone then
    .error "Court, date, and time fields are required"
  else if !inp.isBlocked && (inp.customerPhone.isNone || inp.customerName.isNone) then
    .error "Customer information is required for bookings"
  else if !env.courtFound then
    .error "Court not found"
  else if !env.timeValid then
    .error "Invalid booking time"
  else if !env.available then
    .error "Time slot is not available"
  else if inp.isBlocked then
    .ok ({ customer := none
           durationHours := env.durationHours
           totalPrice := 0
           pricingBreakdown := []
           discountAmount := 0
           finalPrice := 0
           paymentStatus := "paid"
           amountPaid := 0
           status := .blocked
           notes := inp.notes
           createdBy := "admin" }, [])
  else
    let phone := inp.customerPhone.getD ""
    let name := inp.customerName.getD ""
    let resolved : Nat × List BookingEffect :=
      match env.existingCustomer with
      | some cid => (cid, [BookingEffect.customerLookup phone])
      | none => (env.newCustomerId,
          [BookingEffect.customerLookup phone, BookingEffect.customerCreate name phone])
    match calculateBookingPrice env.rateTable env.weekday env.sh env.sm env.eh env.em with
    | .error e => .error (priceErrorMessage e)
    | .ok pricing =>
      .ok ({ customer := some resolved.1
             durationHours := env.durationHours
             totalPrice := pricing.finalPrice
             pricingBreakdown := pricing.breakdown
             discountAmount := 0
             finalPrice := pricing.finalPrice
             paymentStatus := "pending"
             amountPaid := 0
             status := .pending
             notes := inp.notes
             createdBy := "admin" },
        resolved.2 ++ [BookingEffect.pricingInvoked,
          BookingEffect.incrementTotalBookings resolved.1])

/-! ## Court management (`court.controller.ts`) -/

/-- JS falsiness of `s.trim()`: the string is empty or all whitespace. -/
def isBlank (s : String) : Bool := s.data.all Char.isWhitespace

/-- A court document. -/
structure Court where
  id : Nat
  name : String
  description : String
  status : String
deriving DecidableEq, Repr

/-- `createCourt`: name and description must be non-blank, at most 7 courts
may exist (`courtCount >= 7` is rejected), and names are unique. -/
def createCourt (courts : List Court) (newId : Nat) (name description : String) :
    Except String (List Court) :=
  if isBlank name then
    .error "Court name is required"
  else if isBlank description then
    .error "Court description is required"
  else if 7 ≤ courts.length then
    .error "Maximum court limit reached (7 courts)"
  else if courts.any (fun c => c.name == name) then
    .error "Court with this name already exists"
  else
    .ok (courts ++ [⟨newId, name, description, "active"⟩])

/-- `deleteCourt` (`findByIdAndDelete`). -/
def deleteCourt (courts : List Court) (id : Nat) : Except String (List Court) :=
  if courts.any (fun c => c.id == id) then
    .ok (courts.filter fun c => c.id != id)
  else
    .error "Court not found"

/-- The `findByIdAndUpdate` step of `updateCourt`. -/
def applyCourtUpdate (courts : List Court) (id : Nat) (name description : Option String) :
    Except String (List Court) :=
  if courts.any (fun c => c.id == id) then
    .ok (courts.map fun c =>
      if c.id == id then
        { c with name := name.getD c.name, description := description.getD c.description }
      else c)
  else
    .error "Court not found"

/-- `updateCourt`: validates a new name (non-blank, unique among other courts)
and a new description (non-blank), then updates in place. -/
def updateCourt (courts : List Court) (id : Nat) (name description : Option String) :
    Except String (List Court) :=
  if name.isSome && isBlank (name.getD "") then
    .error "Court name cannot be empty"
  else if name.isSome && courts.any (fun c => c.name == name.getD "" && c.id != id) then
    .error "Court with this name already exists"
  else if description.isSome && isBlank (description.getD "") then
    .error "Court description cannot be empty"
  else
    applyCourtUpdate courts id name description

/-- `toggleCourtStatus`: the status must be one of the three allowed values;
the matching court's status is replaced. -/
def toggleCourtStatus (courts : List Court) (id : Nat) (status : String) :
    Except String (List Court) :=
  if !(status == "active" || status == "inactive" || status == "maintenance") then
    .error "Invalid status. Must be: active, inactive, or maintenance"
  else if courts.any (fun c => c.id == id) then
    .ok (courts.map fun c => if c.id == id then { c with status := status } else c)
  else
    .error "Court not found"

/-- The segments partition `[a, b)` without gap or overlap, each one clamped to
one hour past its start. -/
def segsChain : Nat → Nat → List Segment → Prop
  | a, b, [] => a = b
  | a, b, s :: rest => s.startM = a ∧ s.endM = min (a + 60) b ∧ segsChain s.endM b rest

/-- Total minutes covered by a breakdown. -/
def segMinutes (segs : List Segment) : Nat := (segs.map fun s => s.endM - s.startM).sum

/-- Sum of `rate × duration-in-hours` over a breakdown. -/
def segPriceSum (segs : List Segment) : ℚ :=
  (segs.map fun s => s.rate * (((s.endM - s.startM : Nat) : ℚ) / 60)).sum

theorem priceLoop_ok_spec (rt : RateTable) (w : Nat) :
    ∀ n fin cur segs total, fin - cur = n → cur ≤ fin →
      priceLoop rt w fin cur = .ok (segs, total) →
      segsChain cur fin segs ∧ total = segPriceSum segs ∧
        ∀ s ∈ segs, (∃ k, s.startM = cur + 60 * k) ∧ s.endM = min (s.startM + 60) fin ∧
          getPrice rt w s.startM = .ok ⟨s.rate, s.dayType, s.timeSlot⟩ := by
  intro n
  induction n using Nat.strong_induction_on with
  | _ n ih =>
    intro fin cur segs total hn hle hok
    rw [priceLoop] at hok
    by_cases hcf : cur < fin
    · rw [dif_pos hcf] at hok
      have hse : (if fin < cur + 60 then fin else cur + 60) = min (cur + 60) fin := by
        rcases Nat.lt_or_ge fin (cur + 60) with h | h
        · rw [if_pos h, Nat.min_eq_right (Nat.le_of_lt h)]
        · rw [if_neg (Nat.not_lt.mpr h), Nat.min_eq_left h]
      simp only [hse] at hok
      cases hgp : getPrice rt w cur with
      | error e => rw [hgp] at hok; exact absurd hok (by simp)
      | ok info =>
        rw [hgp] at hok
        cases hrec : priceLoop rt w fin (min (cur + 60) fin) with
        | error e => rw [hrec] at hok; exact absurd hok (by simp)
        | ok pr =>
          obtain ⟨segs', total'⟩ := pr
          rw [hrec] at hok
          simp only [Except.ok.injEq, Prod.mk.injEq] at hok
          obtain ⟨hsegs, htotal⟩ := hok
          have hlt : fin - min (cur + 60) fin < n := by omega
          have hle' : min (cur + 60) fin ≤ fin := Nat.min_le_right _ _
          obtain ⟨hchain', htot', hmem'⟩ :=
            ih _ hlt fin (min (cur + 60) fin) segs' total' rfl hle' hrec
          subst hsegs
          refine ⟨⟨rfl, rfl, hchain'⟩, ?_, ?_⟩
          · rw [← htotal, htot', segPriceSum]
            simp [segPriceSum]
          · intro s hs
            rcases List.mem_cons.mp hs with hhead | htail
            · subst hhead
              refine ⟨⟨0, by simp⟩, by simp, hgp⟩
            · obtain ⟨⟨k, hk⟩, hend, hgp'⟩ := hmem' s htail
              refine ⟨?_, hend, hgp'⟩
              rcases Nat.lt_or_ge fin (cur + 60) with hc | hc
              · -- the first step already reached `fin`: the tail is empty
                rw [Nat.min_eq_right (Nat.le_of_lt hc)] at hrec
                rw [priceLoop, dif_neg (lt_irrefl fin)] at hrec
                simp only [Except.ok.injEq, Prod.mk.injEq] at hrec
                rw [← hrec.1] at htail
                exact absurd htail (List.not_mem_nil s)
              · rw [Nat.min_eq_left hc] at hk
                exact ⟨k + 1, by omega⟩
    · rw [dif_neg hcf] at hok
      simp only [Except.ok.injEq, Prod.mk.injEq] at hok
      obtain ⟨hsegs, htotal⟩ := hok
      subst hsegs
      have : cur = fin := by omega
      subst this
      exact ⟨rfl, by simp [segPriceSum, ← htotal], by simp⟩

theorem segsChain_minutes :
    ∀ segs a b, segsChain a b segs → segMinutes segs = b - a := by
  intro segs
  induction segs with
  | nil => intro a b h; simp only [segsChain] at h; simp [segMinutes, h]
  | cons s rest ihr =>
    intro a b h
    obtain ⟨hs, he, hrest⟩ := h
    have := ihr s.endM b hrest
    simp only [segMinutes, List.map_cons, List.sum_cons] at *
    omega

/-- The walk step at instant `t` can be priced: either the Saturday-night
override covers it, or the rate table has an active entry for its
classification. -/
def stepOk (rt : RateTable) (w t : Nat) : Prop :=
  isSaturdayNight w t = true ∨
    ∃ p, rt (getDayType (effectiveWeekday w t)) (getTimeSlot (hourOfTime t)) = some p

/-- Every step of the walk over `[s, e)` (positions `s + 60k`) can be priced. -/
def requiredOk (rt : RateTable) (w s e : Nat) : Prop :=
  ∀ k, s + 60 * k < e → stepOk rt w (s + 60 * k)

theorem getPrice_ok_iff (rt : RateTable) (w t : Nat) :
    (∃ i, getPrice rt w t = .ok i) ↔ stepOk rt w t := by
  rw [getPrice, stepOk]
  by_cases hsn : isSaturdayNight w t = true
  · simp [hsn]
  · rw [if_neg hsn]
    cases hrt : rt (getDayType (effectiveWeekday w t)) (getTimeSlot (hourOfTime t)) with
    | some p => simp [hrt, hsn]
    | none => simp [hrt, hsn]

theorem priceLoop_error_spec (rt : RateTable) (w : Nat) :
    ∀ n fin cur e, fin - cur = n →
      priceLoop rt w fin cur = .error e →
      ∃ dt ts, e = .missingRate dt ts ∧ rt dt ts = none ∧
        ∃ k, cur + 60 * k < fin ∧ isSaturdayNight w (cur + 60 * k) = false ∧
          dt = getDayType (effectiveWeekday w (cur + 60 * k)) ∧
          ts = getTimeSlot (hourOfTime (cur + 60 * k)) := by
  intro n
  induction n using Nat.strong_induction_on with
  | _ n ih =>
    intro fin cur e hn herr
    rw [priceLoop] at herr
    by_cases hcf : cur < fin
    · rw [dif_pos hcf] at herr
      have hse : (if fin < cur + 60 then fin else cur + 60) = min (cur + 60) fin := by
        rcases Nat.lt_or_ge fin (cur + 60) with h | h
        · rw [if_pos h, Nat.min_eq_right (Nat.le_of_lt h)]
        · rw [if_neg (Nat.not_lt.mpr h), Nat.min_eq_left h]
      simp only [hse] at herr
      cases hgp : getPrice rt w cur with
      | error e0 =>
        rw [hgp] at herr
        simp only [Except.error.injEq] at herr
        subst herr
        rw [getPrice] at hgp
        by_cases hsn : isSaturdayNight w cur = true
        · rw [if_pos hsn] at hgp; exact absurd hgp (by simp)
        · rw [if_neg hsn] at hgp
          cases hrt : rt (getDayType (effectiveWeekday w cur)) (getTimeSlot (hourOfTime cur)) with
          | some p => simp only [hrt] at hgp; exact absurd hgp (by simp)
          | none =>
            simp only [hrt, Except.error.injEq] at hgp
            refine ⟨_, _, hgp.symm, hrt, 0, by omega, by simpa using hsn, rfl, rfl⟩
      | ok info =>
        rw [hgp] at herr
        cases hrec : priceLoop rt w fin (min (cur + 60) fin) with
        | ok pr => rw [hrec] at herr; exact absurd herr (by simp)
        | error e1 =>
          rw [hrec] at herr
          simp only [Except.error.injEq] at herr
          subst herr
          rcases Nat.lt_or_ge fin (cur + 60) with hc | hc
          · rw [Nat.min_eq_right (Nat.le_of_lt hc)] at hrec
            rw [priceLoop, dif_neg (lt_irrefl fin)] at hrec
            exact absurd hrec (by simp)
          · rw [Nat.min_eq_left hc] at hrec
            have hlt : fin - (cur + 60) < n := by omega
            obtain ⟨dt, ts, he, hrt, k, hk, hksn, hkdt, hkts⟩ :=
              ih _ hlt fin (cur + 60) e1 rfl hrec
            have harg : cur + 60 * (k + 1) = cur + 60 + 60 * k := by ring
            refine ⟨dt, ts, he, hrt, k + 1, by omega, ?_, ?_, ?_⟩
            · rw [harg]; exact hksn
            · rw [harg]; exact hkdt
            · rw [harg]; exact hkts
    · rw [dif_neg hcf] at herr
      exact absurd herr (by simp)

theorem priceLoop_isOk_iff (rt : RateTable) (w : Nat) :
    ∀ n fin cur, fin - cur = n →
      ((∃ res, priceLoop rt w fin cur = .ok res) ↔ requiredOk rt w cur fin) := by
  intro n
  induction n using Nat.strong_induction_on with
  | _ n ih =>
    intro fin cur hn
    by_cases hcf : cur < fin
    · have hse : (if fin < cur + 60 then fin else cur + 60) = min (cur + 60) fin := by
        rcases Nat.lt_or_ge fin (cur + 60) with h | h
        · rw [if_pos h, Nat.min_eq_right (Nat.le_of_lt h)]
        · rw [if_neg (Nat.not_lt.mpr h), Nat.min_eq_left h]
      have hdec : (∃ res, priceLoop rt w fin cur = .ok res) ↔
          ((∃ i, getPrice rt w cur = .ok i) ∧
            ∃ res, priceLoop rt w fin (min (cur + 60) fin) = .ok res) := by
        rw [priceLoop, dif_pos hcf]
        simp only [hse]
        cases hgp : getPrice rt w cur with
        | error e0 => simp
        | ok info =>
          cases hrec : priceLoop rt w fin (min (cur + 60) fin) with
          | error e1 => simp
          | ok pr => obtain ⟨segs, total⟩ := pr; simp
      have hrec_iff : (∃ res, priceLoop rt w fin (min (cur + 60) fin) = .ok res) ↔
          requiredOk rt w (min (cur + 60) fin) fin := by
        have hlt : fin - min (cur + 60) fin < n := by omega
        exact ih _ hlt fin (min (cur + 60) fin) rfl
      rw [hdec, hrec_iff, getPrice_ok_iff]
      rcases Nat.lt_or_ge fin (cur + 60) with hc | hc
      · rw [Nat.min_eq_right (Nat.le_of_lt hc)]
        constructor
        · intro ⟨h0, _⟩ k hk
          rcases Nat.eq_zero_or_pos k with hk0 | hkpos
          · subst hk0; simpa using h0
          · omega
        · intro hreq
          refine ⟨by simpa using hreq 0 (by omega), ?_⟩
          intro k hk
          omega
      · rw [Nat.min_eq_left hc]
        constructor
        · intro ⟨h0, hrest⟩ k hk
          rcases Nat.eq_zero_or_pos k with hk0 | hkpos
          · subst hk0; simpa using h0
          · obtain ⟨j, rfl⟩ := Nat.exists_eq_add_of_le hkpos
            have harg : cur + 60 * (1 + j) = cur + 60 + 60 * j := by ring
            rw [harg]
            exact hrest j (by omega)
        · intro hreq
          refine ⟨by simpa using hreq 0 (by omega), ?_⟩
          intro k hk
          have harg : cur + 60 + 60 * k = cur + 60 * (k + 1) := by ring
          rw [harg]
          exact hreq (k + 1) (by omega)
    · constructor
      · intro _ k hk
        omega
      · intro _
        exact ⟨([], 0), by rw [priceLoop, dif_neg hcf]⟩

/-- Inversion of a successful `calculateBookingPrice`: the duration checks
passed and the walk produced exactly the returned breakdown and price. -/
theorem calculate_ok_inv (rt : RateTable) (w sh sm eh em : Nat) (r : PriceResult)
    (h : calculateBookingPrice rt w sh sm eh em = .ok r) :
    60 ≤ resolvedDuration sh sm eh em ∧
    startMinutes sh sm ≤ resolvedEnd sh sm eh em ∧
    priceLoop rt w (resolvedEnd sh sm eh em) (startMinutes sh sm) =
      .ok (r.breakdown, r.finalPrice) ∧
    r.totalHours = (resolvedDuration sh sm eh em : ℚ) / 60 := by
  rw [calculateBookingPrice] at h
  split at h
  · exact absurd h (by simp)
  · split at h
    · exact absurd h (by simp)
    · rename_i h1 h2
      cases hpl : priceLoop rt w (resolvedEnd sh sm eh em) (startMinutes sh sm) with
      | error e => rw [hpl] at h; exact absurd h (by simp)
      | ok pr =>
        obtain ⟨segs, total⟩ := pr
        rw [hpl] at h
        simp only [Except.ok.injEq] at h
        subst h
        have hdur : 60 ≤ resolvedDuration sh sm eh em := by
          by_contra hlt
          push_neg at hlt
          exact h1 (by rw [div_lt_one (by norm_num)]; exact_mod_cast hlt)
        refine ⟨hdur, ?_, rfl, rfl⟩
        unfold resolvedDuration at hdur
        omega

/-- C1: whenever `calculateBookingPrice` succeeds, the emitted breakdown
partitions the resolved interval `[start, end)` without gap or overlap, so the
segment durations sum exactly to the resolved duration (midnight rollover
applied when `end <= start`), and the sum of the per-segment prices
`rate × duration` equals the returned `finalPrice` exactly. -/
theorem C1_breakdown_exact (rt : RateTable) (w sh sm eh em : Nat) (r : PriceResult)
    (h : calculateBookingPrice rt w sh sm eh em = .ok r) :
    segsChain (startMinutes sh sm) (resolvedEnd sh sm eh em) r.breakdown ∧
    segMinutes r.breakdown = resolvedDuration sh sm eh em ∧
    segPriceSum r.breakdown = r.finalPrice := by
  obtain ⟨hdur, hle, hpl, _⟩ := calculate_ok_inv rt w sh sm eh em r h
  obtain ⟨hchain, htot, hmem⟩ :=
    priceLoop_ok_spec rt w _ _ _ r.breakdown r.finalPrice rfl hle hpl
  refine ⟨hchain, ?_, htot.symm⟩
  rw [segsChain_minutes _ _ _ hchain]
  rfl

/-- C1 witness: Monday 10:00–12:00 at the default rates gives two one-hour
weekday/day segments at 80 and a final price of 160. -/
theorem C1_breakdown_exact_witness :
    calculateBookingPrice sampleRates 1 10 0 12 0 =
      .ok ⟨2, [⟨600, 660, 80, .weekday, .day⟩, ⟨660, 720, 80, .weekday, .day⟩], 160⟩ ∧
    (segsChain (startMinutes 10 0) (resolvedEnd 10 0 12 0)
        [⟨600, 660, 80, .weekday, .day⟩, ⟨660, 720, 80, .weekday, .day⟩] ∧
      segMinutes [⟨600, 660, 80, .weekday, .day⟩, ⟨660, 720, 80, .weekday, .day⟩] =
        resolvedDuration 10 0 12 0 ∧
      segPriceSum [⟨600, 660, 80, .weekday, .day⟩, ⟨660, 720, 80, .weekday, .day⟩] = 160) := by
  have hcalc : calculateBookingPrice sampleRates 1 10 0 12 0 =
      .ok ⟨2, [⟨600, 660, 80, .weekday, .day⟩, ⟨660, 720, 80, .weekday, .day⟩], 160⟩ := by
    simp [calculateBookingPrice, priceLoop, getPrice, sampleRates, resolvedEnd,
      resolvedDuration, startMinutes, isSaturdayNight, effectiveWeekday, weekdayAt, hourOfTime,
      isNightTime, getDayType, getTimeSlot, isWeekendDay]
    norm_num
  exact ⟨hcalc, C1_breakdown_exact sampleRates 1 10 0 12 0 _ hcalc⟩

/-- C2 counterexample: Monday 10:30–12:00 is a valid request whose breakdown
is 10:30–11:30 and 11:30–12:00.  The first segment ends one hour after its
start (11:30 = minute 690), not at the next clock-hour boundary (11:00 =
minute 660), and the internal boundary 690 does not have minutes = 00. -/
theorem C2_counterexample :
    calculateBookingPrice sampleRates 1 10 30 12 0 =
      .ok ⟨3 / 2, [⟨630, 690, 80, .weekday, .day⟩, ⟨690, 720, 80, .weekday, .day⟩], 120⟩ ∧
    minuteOfTime 690 ≠ 0 ∧ (690 : Nat) ≠ 660 := by
  refine ⟨?_, by decide, by decide⟩
  simp [calculateBookingPrice, priceLoop, getPrice, sampleRates, resolvedEnd,
    resolvedDuration, startMinutes, isSaturdayNight, effectiveWeekday, weekdayAt, hourOfTime,
    isNightTime, getDayType, getTimeSlot, isWeekendDay]
  norm_num

/-- C2 amended: each emitted segment is bounded by (a) one hour after the
segment's own start and (b) the requested end — so the boundaries lie on the
60-minute grid anchored at the requested start, which is clock-hour-aligned
exactly when the start minute is 00 — each segment is classified (day type,
time slot, rate) by `getPrice` at the segment's start instant, and adjacent
segments are never merged (every segment is clamped to one hour even when the
neighbouring segment has the same rate). -/
theorem C2_amended_segment_bounds (rt : RateTable) (w sh sm eh em : Nat) (r : PriceResult)
    (h : calculateBookingPrice rt w sh sm eh em = .ok r) :
    segsChain (startMinutes sh sm) (resolvedEnd sh sm eh em) r.breakdown ∧
    ∀ s ∈ r.breakdown,
      (∃ k, s.startM = startMinutes sh sm + 60 * k) ∧
      s.endM = min (s.startM + 60) (resolvedEnd sh sm eh em) ∧
      getPrice rt w s.startM = .ok ⟨s.rate, s.dayType, s.timeSlot⟩ := by
  obtain ⟨hdur, hle, hpl, _⟩ := calculate_ok_inv rt w sh sm eh em r h
  obtain ⟨hchain, _, hmem⟩ :=
    priceLoop_ok_spec rt w _ _ _ r.breakdown r.finalPrice rfl hle hpl
  exact ⟨hchain, hmem⟩

/-- C2 amended witness: the Monday 10:30–12:00 request. -/
theorem C2_amended_segment_bounds_witness :
    calculateBookingPrice sampleRates 1 10 30 12 0 =
      .ok ⟨3 / 2, [⟨630, 690, 80, .weekday, .day⟩, ⟨690, 720, 80, .weekday, .day⟩], 120⟩ ∧
    (segsChain (startMinutes 10 30) (resolvedEnd 10 30 12 0)
        [⟨630, 690, 80, .weekday, .day⟩, ⟨690, 720, 80, .weekday, .day⟩] ∧
      ∀ s ∈ ([⟨630, 690, 80, .weekday, .day⟩, ⟨690, 720, 80, .weekday, .day⟩] : List Segment),
        (∃ k, s.startM = startMinutes 10 30 + 60 * k) ∧
        s.endM = min (s.startM + 60) (resolvedEnd 10 30 12 0) ∧
        getPrice sampleRates 1 s.startM = .ok ⟨s.rate, s.dayType, s.timeSlot⟩) := by
  have hcalc : calculateBookingPrice sampleRates 1 10 30 12 0 =
      .ok ⟨3 / 2, [⟨630, 690, 80, .weekday, .day⟩, ⟨690, 720, 80, .weekday, .day⟩], 120⟩ := by
    simp [calculateBookingPrice, priceLoop, getPrice, sampleRates, resolvedEnd,
      resolvedDuration, startMinutes, isSaturdayNight, effectiveWeekday, weekdayAt, hourOfTime,
      isNightTime, getDayType, getTimeSlot, isWeekendDay]
    norm_num
  exact ⟨hcalc, C2_amended_segment_bounds sampleRates 1 10 30 12 0 _ hcalc⟩

/-- C3 counterexample: a Thursday (JS weekday 4) 22:00–01:00 booking at the
default rates (weekend/night = 135) yields three one-hour segments all
classified weekday/night at the weekday-night rate 100 — not weekend/night at
135 as claimed: Thursday is not a weekend day under the Friday/Saturday rule,
and the effective-date shift maps the 00:00–01:00 segment back to Thursday. -/
theorem C3_counterexample :
    calculateBookingPrice sampleRates 4 22 0 1 0 =
      .ok ⟨3, [⟨1320, 1380, 100, .weekday, .night⟩, ⟨1380, 1440, 100, .weekday, .night⟩,
        ⟨1440, 1500, 100, .weekday, .night⟩], 300⟩ ∧
    sampleRates .weekend .night = some 135 ∧
    DayType.weekday ≠ DayType.weekend ∧ (300 : ℚ) ≠ 3 * 135 := by
  refine ⟨?_, rfl, by decide, by norm_num⟩
  simp [calculateBookingPrice, priceLoop, getPrice, sampleRates, resolvedEnd,
    resolvedDuration, startMinutes, isSaturdayNight, effectiveWeekday, weekdayAt, hourOfTime,
    isNightTime, getDayType, getTimeSlot, isWeekendDay]
  norm_num

/-- C3 amended: for a Thursday 22:00–01:00 booking (crossing midnight into
Friday), `calculateBookingPrice` emits exactly three one-hour segments
22:00–23:00, 23:00–00:00 and 00:00–01:00, all three classified weekday/night
(the effective-date shift applies to the 00:00–01:00 segment, mapping it back
to Thursday, which is a weekday under the Friday/Saturday weekend rule), and
all three priced at the weekday-night rate from the rate table. -/
theorem C3_amended_thursday_night (rt : RateTable) (p : ℚ)
    (h : rt .weekday .night = some p) :
    calculateBookingPrice rt 4 22 0 1 0 =
      .ok ⟨3, [⟨1320, 1380, p, .weekday, .night⟩, ⟨1380, 1440, p, .weekday, .night⟩,
        ⟨1440, 1500, p, .weekday, .night⟩], 3 * p⟩ := by
  simp [calculateBookingPrice, priceLoop, getPrice, h, resolvedEnd,
    resolvedDuration, startMinutes, isSaturdayNight, effectiveWeekday, weekdayAt, hourOfTime,
    isNightTime, getDayType, getTimeSlot, isWeekendDay]
  norm_num
  ring

/-- C3 amended witness: the default rate table, whose weekday/night rate
is 100. -/
theorem C3_amended_thursday_night_witness :
    sampleRates .weekday .night = some 100 ∧
    calculateBookingPrice sampleRates 4 22 0 1 0 =
      .ok ⟨3, [⟨1320, 1380, 100, .weekday, .night⟩, ⟨1380, 1440, 100, .weekday, .night⟩,
        ⟨1440, 1500, 100, .weekday, .night⟩], 3 * 100⟩ :=
  ⟨rfl, C3_amended_thursday_night sampleRates 100 rfl⟩

/-- C4: whenever the effective date (hours in [00:00, 04:00) shifted back one
day) falls on Saturday (JS weekday 6) and the hour at the segment's start is a
night hour, `getPrice` returns the fixed override 110 classified weekend/night
without consulting the rate table; in particular a Saturday 19:00–21:00
booking yields two segments at 110/hr and finalPrice 220 for every rate table,
including tables with no weekend/night entry at all. -/
theorem C4_saturday_night_override :
    (∀ (rt : RateTable) (w t : Nat), effectiveWeekday w t = 6 →
      isNightTime (hourOfTime t) = true → getPrice rt w t = .ok ⟨110, .weekend, .night⟩) ∧
    (∀ rt : RateTable, calculateBookingPrice rt 6 19 0 21 0 =
      .ok ⟨2, [⟨1140, 1200, 110, .weekend, .night⟩, ⟨1200, 1260, 110, .weekend, .night⟩],
        220⟩) := by
  constructor
  · intro rt w t hw hn
    rw [getPrice, if_pos]
    rw [isSaturdayNight, hw, hn]
    rfl
  · intro rt
    simp [calculateBookingPrice, priceLoop, getPrice, resolvedEnd,
      resolvedDuration, startMinutes, isSaturdayNight, effectiveWeekday, weekdayAt, hourOfTime,
      isNightTime, getDayType, getTimeSlot, isWeekendDay]
    norm_num

/-- C4 witness: a rate table whose weekend/night entry is absent still prices
Saturday 19:00 at the 110 override, and the Saturday 19:00–21:00 booking still
totals 220. -/
theorem C4_saturday_night_override_witness :
    (effectiveWeekday 6 1140 = 6 ∧ isNightTime (hourOfTime 1140) = true) ∧
    getPrice noWeekendNightRates 6 1140 = .ok ⟨110, .weekend, .night⟩ ∧
    calculateBookingPrice noWeekendNightRates 6 19 0 21 0 =
      .ok ⟨2, [⟨1140, 1200, 110, .weekend, .night⟩, ⟨1200, 1260, 110, .weekend, .night⟩],
        220⟩ :=
  ⟨⟨rfl, rfl⟩, C4_saturday_night_override.1 noWeekendNightRates 6 1140 rfl rfl,
    C4_saturday_night_override.2 noWeekendNightRates⟩

/-- C5: for valid `"HH:MM"` inputs, `calculateBookingPrice` fails with one of
the two invalid-duration errors exactly when the resolved duration (midnight
rollover applied when `end <= start`) is under 60 minutes or not a multiple of
30 minutes; on those inputs the error is raised before any breakdown is
built. -/
theorem C5_duration_validation (rt : RateTable) (w sh sm eh em : Nat)
    (hsh : sh < 24) (hsm : sm < 60) (heh : eh < 24) (hem : em < 60) :
    (calculateBookingPrice rt w sh sm eh em = .error .minDuration ∨
      calculateBookingPrice rt w sh sm eh em = .error .notHalfHour) ↔
    (resolvedDuration sh sm eh em < 60 ∨ resolvedDuration sh sm eh em % 30 ≠ 0) := by
  constructor
  · intro hcase
    by_contra hc
    push_neg at hc
    obtain ⟨hdur, hmod⟩ := hc
    have hc1 : ¬ ((resolvedDuration sh sm eh em : ℚ) / 60 < 1) := by
      rw [div_lt_one (by norm_num)]
      push_neg
      exact_mod_cast hdur
    have hc2 : ¬ (resolvedDuration sh sm eh em % 60 ≠ 0 ∧
        resolvedDuration sh sm eh em % 60 ≠ 30) := by
      omega
    rw [calculateBookingPrice, if_neg hc1, if_neg hc2] at hcase
    cases hpl : priceLoop rt w (resolvedEnd sh sm eh em) (startMinutes sh sm) with
    | ok pr =>
      obtain ⟨segs, total⟩ := pr
      rw [hpl] at hcase
      rcases hcase with hx | hx <;> simp at hx
    | error e =>
      rw [hpl] at hcase
      obtain ⟨dt, ts, he, _⟩ := priceLoop_error_spec rt w _ _ _ e rfl hpl
      subst he
      rcases hcase with hx | hx <;> simp at hx
  · intro hcond
    by_cases hd : resolvedDuration sh sm eh em < 60
    · left
      have hq : ((resolvedDuration sh sm eh em : ℚ) / 60 < 1) := by
        rw [div_lt_one (by norm_num)]
        exact_mod_cast hd
      rw [calculateBookingPrice, if_pos hq]
    · have hmod : resolvedDuration sh sm eh em % 30 ≠ 0 := by
        rcases hcond with hx | hx
        · exact absurd hx hd
        · exact hx
      have hc1 : ¬ ((resolvedDuration sh sm eh em : ℚ) / 60 < 1) := by
        rw [div_lt_one (by norm_num)]
        push_neg
        exact_mod_cast Nat.not_lt.mp hd
      right
      rw [calculateBookingPrice, if_neg hc1,
        if_pos (show resolvedDuration sh sm eh em % 60 ≠ 0 ∧
          resolvedDuration sh sm eh em % 60 ≠ 30 by omega)]

/-- C5 witness: 10:00–10:30 resolves to 30 minutes and is rejected as under
one hour. -/
theorem C5_duration_validation_witness :
    (calculateBookingPrice sampleRates 1 10 0 10 30 = .error .minDuration ∨
      calculateBookingPrice sampleRates 1 10 0 10 30 = .error .notHalfHour) ↔
    (resolvedDuration 10 0 10 30 < 60 ∨ resolvedDuration 10 0 10 30 % 30 ≠ 0) :=
  C5_duration_validation sampleRates 1 10 0 10 30 (by decide) (by decide) (by decide) (by decide)

/-- C6: on inputs passing the duration checks, (1) if some walk step's
(dayType, timeSlot) pair has no active rate and is not covered by the
Saturday-night override, `calculateBookingPrice` fails with a `missingRate`
error naming a pair that is indeed absent from the table; (2) success implies
every walk step was priceable; (3) no default is silently substituted: every
returned segment's rate is either the Saturday-night override or the table's
entry for the segment's own classification. -/
theorem C6_missing_rate (rt : RateTable) (w sh sm eh em : Nat)
    (hdur : 60 ≤ resolvedDuration sh sm eh em)
    (hmod : resolvedDuration sh sm eh em % 30 = 0) :
    (¬ requiredOk rt w (startMinutes sh sm) (resolvedEnd sh sm eh em) →
      ∃ dt ts, calculateBookingPrice rt w sh sm eh em = .error (.missingRate dt ts) ∧
        rt dt ts = none) ∧
    (∀ r, calculateBookingPrice rt w sh sm eh em = .ok r →
      requiredOk rt w (startMinutes sh sm) (resolvedEnd sh sm eh em)) ∧
    (∀ r, calculateBookingPrice rt w sh sm eh em = .ok r →
      ∀ s ∈ r.breakdown, isSaturdayNight w s.startM = true ∨
        rt s.dayType s.timeSlot = some s.rate) := by
  have hc1 : ¬ ((resolvedDuration sh sm eh em : ℚ) / 60 < 1) := by
    rw [div_lt_one (by norm_num)]
    push_neg
    exact_mod_cast hdur
  have hc2 : ¬ (resolvedDuration sh sm eh em % 60 ≠ 0 ∧
      resolvedDuration sh sm eh em % 60 ≠ 30) := by
    omega
  have hle : startMinutes sh sm ≤ resolvedEnd sh sm eh em := by
    have := hdur
    unfold resolvedDuration at this
    omega
  refine ⟨?_, ?_, ?_⟩
  · intro hreq
    cases hpl : priceLoop rt w (resolvedEnd sh sm eh em) (startMinutes sh sm) with
    | ok res =>
      exact absurd ((priceLoop_isOk_iff rt w _ _ _ rfl).mp ⟨res, hpl⟩) hreq
    | error e =>
      obtain ⟨dt, ts, he, hnone, _⟩ := priceLoop_error_spec rt w _ _ _ e rfl hpl
      subst he
      refine ⟨dt, ts, ?_, hnone⟩
      rw [calculateBookingPrice, if_neg hc1, if_neg hc2, hpl]
  · intro r hok
    obtain ⟨_, _, hpl, _⟩ := calculate_ok_inv rt w sh sm eh em r hok
    exact (priceLoop_isOk_iff rt w _ _ _ rfl).mp ⟨(r.breakdown, r.finalPrice), hpl⟩
  · intro r hok s hs
    obtain ⟨_, _, hpl, _⟩ := calculate_ok_inv rt w sh sm eh em r hok
    obtain ⟨_, _, hmem⟩ :=
      priceLoop_ok_spec rt w _ _ _ r.breakdown r.finalPrice rfl hle hpl
    obtain ⟨_, _, hgp⟩ := hmem s hs
    rw [getPrice] at hgp
    by_cases hsn : isSaturdayNight w s.startM = true
    · exact Or.inl hsn
    · rw [if_neg hsn] at hgp
      cases hrt : rt (getDayType (effectiveWeekday w s.startM))
          (getTimeSlot (hourOfTime s.startM)) with
      | none => simp only [hrt] at hgp; exact absurd hgp (by simp)
      | some p =>
        simp only [hrt, Except.ok.injEq, PriceInfo.mk.injEq] at hgp
        obtain ⟨hr, hd, ht⟩ := hgp
        right
        rw [← hd, ← ht, hrt, hr]

/-- C6 witness: Friday (JS weekday 5) 19:00–21:00 needs the weekend/night rate
without the Saturday-night override; with that table entry absent the
calculation fails with `missingRate weekend night`. -/
theorem C6_missing_rate_witness :
    (60 ≤ resolvedDuration 19 0 21 0 ∧ resolvedDuration 19 0 21 0 % 30 = 0) ∧
    (¬ requiredOk noWeekendNightRates 5 (startMinutes 19 0) (resolvedEnd 19 0 21 0) →
      ∃ dt ts, calculateBookingPrice noWeekendNightRates 5 19 0 21 0 =
        .error (.missingRate dt ts) ∧ noWeekendNightRates dt ts = none) ∧
    (∀ r, calculateBookingPrice noWeekendNightRates 5 19 0 21 0 = .ok r →
      requiredOk noWeekendNightRates 5 (startMinutes 19 0) (resolvedEnd 19 0 21 0)) ∧
    (∀ r, calculateBookingPrice noWeekendNightRates 5 19 0 21 0 = .ok r →
      ∀ s ∈ r.breakdown, isSaturdayNight 5 s.startM = true ∨
        noWeekendNightRates s.dayType s.timeSlot = some s.rate) :=
  ⟨⟨by decide, by decide⟩,
    C6_missing_rate noWeekendNightRates 5 19 0 21 0 (by decide) (by decide)⟩

/-- C7: `updateBookingStatus` and `cancelBooking` refuse to write a booking
whose status is terminal (`cancelled` or `completed`) — the document is left
unchanged because the error is thrown before any write — while a cancel
attempt on any non-terminal status (`pending`, `confirmed`, `blocked`)
succeeds and sets the status to `cancelled`. -/
theorem C7_terminal_transitions :
    (∀ (b : BookingDoc) (st : BookingStatus) (ns : Option String),
      (b.status = .cancelled ∨ b.status = .completed) →
        (∀ b', updateBookingStatus b st ns ≠ .ok b') ∧
        (∀ rsn b', cancelBooking b rsn ≠ .ok b')) ∧
    (∀ (b : BookingDoc) (rsn : Option String),
      b.status ≠ .cancelled → b.status ≠ .completed →
        ∃ b', cancelBooking b rsn = .ok b' ∧ b'.status = .cancelled) := by
  constructor
  · intro b st ns hterm
    constructor
    · intro b'
      rw [updateBookingStatus.eq_def]
      rcases hterm with h | h
      · rw [if_pos h]; simp
      · by_cases hc : b.status = BookingStatus.cancelled
        · rw [if_pos hc]; simp
        · rw [if_neg hc, if_pos h]; simp
    · intro rsn b'
      rw [cancelBooking.eq_def]
      rcases hterm with h | h
      · rw [if_pos h]; simp
      · by_cases hc : b.status = BookingStatus.cancelled
        · rw [if_pos hc]; simp
        · rw [if_neg hc, if_pos h]; simp
  · intro b rsn hnc hncp
    rw [cancelBooking.eq_def, if_neg hnc, if_neg hncp]
    exact ⟨_, rfl, rfl⟩

/-- C7 witness: a completed booking rejects both writes; a pending booking is
cancellable. -/
theorem C7_terminal_transitions_witness :
    ((BookingDoc.mk .completed none).status = .cancelled ∨
      (BookingDoc.mk .completed none).status = .completed) ∧
    ((∀ b', updateBookingStatus ⟨.completed, none⟩ .confirmed none ≠ .ok b') ∧
      (∀ rsn b', cancelBooking ⟨.completed, none⟩ rsn ≠ .ok b')) ∧
    ((BookingDoc.mk .pending none).status ≠ .cancelled ∧
      (BookingDoc.mk .pending none).status ≠ .completed) ∧
    (∃ b', cancelBooking ⟨.pending, none⟩ none = .ok b' ∧ b'.status = .cancelled) :=
  ⟨Or.inr rfl,
    C7_terminal_transitions.1 ⟨.completed, none⟩ .confirmed none (Or.inr rfl),
    ⟨by decide, by decide⟩,
    C7_terminal_transitions.2 ⟨.pending, none⟩ none (by decide) (by decide)⟩

/-- C8 counterexample: `calculateBookingPrice` does modify a `Date`-typed
`bookingDate` argument.  Passing a Monday `Date` carrying time-of-day 10:00
(600 minutes), the caller's object holds time-of-day 0 after the call —
`dateObj.setHours(0, 0, 0, 0)` normalized it in place — so the function is
not free of writes to its arguments. -/
theorem C8_counterexample :
    (calculateBookingPriceDateArg sampleRates 1 600 10 0 12 0).2 = 0 ∧ (600 : Nat) ≠ 0 :=
  ⟨rfl, by decide⟩

/-- C8 amended: `calculateBookingPrice` is deterministic — its result is a
function of the rate table, the booking date's weekday and the two times
alone, so two invocations with identical inputs and an unchanged rate table
return identical breakdowns and final prices, and the result is independent
of the `Date` argument's time-of-day — but its only state effect is real: a
`Date`-typed `bookingDate` argument is normalized in place to local midnight
(its time-of-day after the call is always 0). -/
theorem C8_amended_pure_computation (rt : RateTable) (w t t' sh sm eh em : Nat) :
    (calculateBookingPriceDateArg rt w t sh sm eh em).1 =
      (calculateBookingPriceDateArg rt w t' sh sm eh em).1 ∧
    (calculateBookingPriceDateArg rt w t sh sm eh em).1 =
      calculateBookingPrice rt w sh sm eh em ∧
    (calculateBookingPriceDateArg rt w t sh sm eh em).2 = 0 :=
  ⟨rfl, rfl, rfl⟩

/-- An option known to be `some` is not `none`. -/
theorem isNone_eq_false_of_isSome {α : Type} {o : Option α} (h : o.isSome = true) :
    o.isNone = false := by
  cases o
  · simp at h
  · rfl

/-- C9: a blocked manual booking (`isBlocked = true`) that passes the field,
court, time and availability gates persists a reservation with no customer
reference, zero total and final price, an empty pricing breakdown, status
`blocked` and payment status `"paid"`, and performs no customer lookup or
creation, no pricing-engine call and no booking-count increment (the effect
list is empty). -/
theorem C9_blocked_booking (env : ManualBookingEnv) (inp : ManualBookingInput)
    (hb : inp.isBlocked = true)
    (h1 : inp.courtId.isSome = true) (h2 : inp.bookingDate.isSome = true)
    (h3 : inp.startTime.isSome = true) (h4 : inp.endTime.isSome = true)
    (hc : env.courtFound = true) (ht : env.timeValid = true)
    (ha : env.available = true) :
    createManualBooking env inp =
      .ok ({ customer := none
             durationHours := env.durationHours
             totalPrice := 0
             pricingBreakdown := []
             discountAmount := 0
             finalPrice := 0
             paymentStatus := "paid"
             amountPaid := 0
             status := .blocked
             notes := inp.notes
             createdBy := "admin" }, []) := by
  rw [createManualBooking.eq_def, hb, hc, ht, ha, isNone_eq_false_of_isSome h1,
    isNone_eq_false_of_isSome h2, isNone_eq_false_of_isSome h3, isNone_eq_false_of_isSome h4]
  simp

/-- A concrete environment for a blocked slot. -/
def sampleBlockedEnv : ManualBookingEnv :=
  { courtFound := true, timeValid := true, available := true, durationHours := 2,
    existingCustomer := none, newCustomerId := 1, rateTable := sampleRates,
    weekday := 6, sh := 19, sm := 0, eh := 21, em := 0 }

/-- A concrete blocked-slot request. -/
def sampleBlockedInput : ManualBookingInput :=
  { courtId := some "court1", bookingDate := some "2025-01-04",
    startTime := some "19:00", endTime := some "21:00", customerPhone := none,
    customerName := none, customerEmail := none, notes := none, isBlocked := true }

/-- C9 witness: the concrete blocked request persists the blocked record with
an empty effect list. -/
theorem C9_blocked_booking_witness :
    (sampleBlockedInput.isBlocked = true ∧ sampleBlockedInput.courtId.isSome = true ∧
      sampleBlockedInput.bookingDate.isSome = true ∧
      sampleBlockedInput.startTime.isSome = true ∧
      sampleBlockedInput.endTime.isSome = true ∧ sampleBlockedEnv.courtFound = true ∧
      sampleBlockedEnv.timeValid = true ∧ sampleBlockedEnv.available = true) ∧
    createManualBooking sampleBlockedEnv sampleBlockedInput =
      .ok ({ customer := none
             durationHours := sampleBlockedEnv.durationHours
             totalPrice := 0
             pricingBreakdown := []
             discountAmount := 0
             finalPrice := 0
             paymentStatus := "paid"
             amountPaid := 0
             status := .blocked
             notes := sampleBlockedInput.notes
             createdBy := "admin" }, []) :=
  ⟨⟨rfl, rfl, rfl, rfl, rfl, rfl, rfl, rfl⟩,
    C9_blocked_booking sampleBlockedEnv sampleBlockedInput rfl rfl rfl rfl rfl rfl rfl rfl⟩

/-- C10: `createCourt` rejects every request once 7 courts exist (any outcome
is an error, so the stored collection is unchanged), and each court operation
preserves the invariant `length ≤ 7`: creation adds one court only below the
limit, deletion and in-place updates never grow the collection. -/
theorem C10_court_limit :
    (∀ (courts : List Court) (newId : Nat) (name description : String),
      7 ≤ courts.length →
        ∀ courts', createCourt courts newId name description ≠ .ok courts') ∧
    (∀ (courts : List Court) (newId : Nat) (name description : String)
      (courts' : List Court), courts.length ≤ 7 →
        createCourt courts newId name description = .ok courts' → courts'.length ≤ 7) ∧
    (∀ (courts : List Court) (id : Nat) (courts' : List Court), courts.length ≤ 7 →
      deleteCourt courts id = .ok courts' → courts'.length ≤ 7) ∧
    (∀ (courts : List Court) (id : Nat) (name description : Option String)
      (courts' : List Court), courts.length ≤ 7 →
        updateCourt courts id name description = .ok courts' → courts'.length ≤ 7) ∧
    (∀ (courts : List Court) (id : Nat) (status : String) (courts' : List Court),
      courts.length ≤ 7 →
        toggleCourtStatus courts id status = .ok courts' → courts'.length ≤ 7) := by
  refine ⟨?_, ?_, ?_, ?_, ?_⟩
  · intro courts newId name description h7 courts'
    rw [createCourt]
    split_ifs with hn hd hlim hdup
    all_goals first
    | simp
    | exact absurd h7 hlim
  · intro courts newId name description courts' hle hok
    rw [createCourt] at hok
    split_ifs at hok with hn hd hlim hdup
    simp only [Except.ok.injEq] at hok
    subst hok
    simp only [List.length_append, List.length_cons, List.length_nil]
    omega
  · intro courts id courts' hle hok
    rw [deleteCourt] at hok
    split_ifs at hok with hex
    simp only [Except.ok.injEq] at hok
    subst hok
    exact le_trans (List.length_filter_le _ _) hle
  · intro courts id name description courts' hle hok
    rw [updateCourt] at hok
    split_ifs at hok with hn hdup hd
    rw [applyCourtUpdate] at hok
    split_ifs at hok with hex
    simp only [Except.ok.injEq] at hok
    subst hok
    simpa using hle
  · intro courts id status courts' hle hok
    rw [toggleCourtStatus] at hok
    split_ifs at hok with hval hex
    simp only [Except.ok.injEq] at hok
    subst hok
    simpa using hle

/-- Seven concrete courts. -/
def sevenCourts : List Court :=
  [⟨0, "Court 0", "d", "active"⟩, ⟨1, "Court 1", "d", "active"⟩,
   ⟨2, "Court 2", "d", "active"⟩, ⟨3, "Court 3", "d", "active"⟩,
   ⟨4, "Court 4", "d", "active"⟩, ⟨5, "Court 5", "d", "active"⟩,
   ⟨6, "Court 6", "d", "active"⟩]

/-- C10 witness: with 7 courts stored, creation of an eighth is rejected; and
a creation that does succeed (on an empty store) keeps the count within 7. -/
theorem C10_court_limit_witness :
    (7 ≤ sevenCourts.length ∧
      ∀ courts', createCourt sevenCourts 7 "Court 7" "d" ≠ .ok courts') ∧
    (([] : List Court).length ≤ 7 ∧
      createCourt [] 0 "Court A" "d" = .ok [⟨0, "Court A", "d", "active"⟩] ∧
      ([⟨0, "Court A", "d", "active"⟩] : List Court).length ≤ 7) :=
  ⟨⟨by decide, fun courts' => C10_court_limit.1 sevenCourts 7 "Court 7" "d" (by decide) courts'⟩,
    ⟨by decide, rfl,
      C10_court_limit.2.1 [] 0 "Court A" "d" [⟨0, "Court A", "d", "active"⟩]
        (by decide) rfl⟩⟩

end CricketBooking
